import Mathlib

/-!
# Verification of the timetable-sync cache-aside resolution layer

Shallow embedding of the cache-aside resolution core of `timetable-sync-api`
(`src/timetable/api.py`, `src/timetable/utils.py`, `src/timetable/cache.py`,
`src/timetable/models.py`).

Embedding conventions:

* Async functions become state-passing functions over a state `St` holding the
  Valkey key-value cache and a trace of observable effects (upstream HTTP
  requests issued by `API._fetch_data`, and cache-store operations).  Awaited
  calls are sequential; `asyncio.gather` over page fetches issues all requests
  and then scans the results in order, which is the observable behaviour of
  `fetch_category` (it re-raises the first exception of the gathered list).
* The upstream service, the Python stdlib UUID parser, the rapidfuzz scorer
  and the wall clock are external collaborators; they are packaged in a
  `World` record that every function takes as a parameter.
* UTC datetimes are embedded as `Int` on an order-preserving timeline;
  `mkDate y m d` stands for `datetime.datetime(y, m, d, tzinfo=utc)`.
  `astimezone(UTC)` is the identity on this timeline.
* Python exceptions become `Except PyErr`; an exception escaping a function
  leaves behind whatever cache writes already happened, so state is threaded
  through errors (`Except PyErr α × St`).
* msgspec serialization is external: the cache stores the domain values
  themselves, keyed by the same key scheme as `cache.py`.
-/

deriving instance DecidableEq for Except

namespace TimetableSync

/-- Python `str.strip()`: drop leading and trailing whitespace.  (Defined over
the character list so that it evaluates by kernel reduction.) -/
def pyStrip (s : String) : String :=
  ⟨((s.data.dropWhile Char.isWhitespace).reverse.dropWhile Char.isWhitespace).reverse⟩

/-- Closed enumeration of category types (`models.CategoryType`). -/
inductive CategoryType
  | MODULES
  | LOCATIONS
  | PROGRAMMES_OF_STUDY
  deriving DecidableEq, Repr

/-- The fixed upstream category identifier bound to each category type
(the enum values of `models.CategoryType`). -/
def CategoryType.value : CategoryType → String
  | .MODULES => "525fe79b-73c3-4b5c-8186-83c652b3adcc"
  | .LOCATIONS => "1e042cb1-547d-41d4-ae93-a1f2c3d34538"
  | .PROGRAMMES_OF_STUDY => "241e4d36-60e0-49f8-b27e-99416745d98d"

/-- A parsed `uuid.UUID` value, identified with its canonical string form
`str(uuid)` (lowercase hyphenated), which is what the source interpolates into
cache keys and request payloads.  Parsing (`uuid.UUID(code)`) is Python stdlib
and is supplied as an external collaborator in `World`. -/
structure UUID where
  canonical : String
  deriving DecidableEq, Repr

/-- UTC datetimes embedded as integer timestamps.  `mkDate y m d` is the
timestamp of `datetime(y, m, d, tzinfo=utc)`; it is strictly monotone in
(year, month, day) for real dates, which is all the source compares. -/
def mkDate (year month day : Int) : Int :=
  (year * 372 + (month - 1) * 31 + (day - 1)) * 86400

/-- `models.Event`, restricted to the fields this core reads: the identity and
the start/end timestamps used for range filtering.  The remaining descriptive
fields are out of the resolution layer's concern (spec section 3). -/
structure Event where
  identity : String
  start : Int
  endTime : Int
  deriving DecidableEq, Repr

/-- `models.CategoryItem` (fields in source order). -/
structure CategoryItem where
  description : Option String
  categoryType : CategoryType
  parentCategories : List String
  identity : String
  name : String
  code : String
  deriving DecidableEq, Repr

/-- Modelled from the spec: `models.BasicCategoryItem` is referenced by
`api.py` and `utils.py` but its definition is not among the provided sources.
Its construction site (`api.py`, `BasicCategoryItem(name=item.name,
identity=item.identity)`) and the spec's data model fix it as a struct holding
just the item's identity and name. -/
structure BasicCategoryItem where
  identity : String
  name : String
  deriving DecidableEq, Repr

/-- The `BasicCategoryItem(name=item.name, identity=item.identity)`
projection from `api.fetch_category`. -/
def toBasic (i : CategoryItem) : BasicCategoryItem :=
  ⟨i.identity, i.name⟩

/-- `models.Category`, generic over the item type as in the source
(`Category[CategoryItemT]`). -/
structure Category (α : Type) where
  items : List α
  count : Nat
  deriving DecidableEq, Repr

/-- `models.CategoryItemTimetable`. -/
structure CategoryItemTimetable where
  categoryType : CategoryType
  identity : String
  name : String
  events : List Event
  deriving DecidableEq, Repr

/-- The argument passed to `InvalidCodeError(...)`: the free-text path passes
the raw code string, the canonical-identifier path passes the parsed
`uuid.UUID` object. -/
inductive ErrArg
  | strArg (s : String)
  | uuidArg (u : UUID)
  deriving DecidableEq, Repr

/-- `models.InvalidCodeError`.  `args` models `Exception.args[0]` (set by
`Exception.__init__` from the constructor argument).  `code` models the
class-level annotation `code : str`; no `__init__` or other code ever assigns
it, so on every constructed instance the attribute is absent (`none`). -/
structure InvalidCodeError where
  args : ErrArg
  code : Option String
  deriving DecidableEq, Repr

/-- `InvalidCodeError(x)`: the argument lands in `args`; the annotated `code`
attribute is never assigned. -/
def InvalidCodeError.raise (a : ErrArg) : InvalidCodeError :=
  ⟨a, none⟩

/-- Exceptions raised by the resolution layer. -/
inductive PyErr
  | invalidCode (e : InvalidCodeError)
  | valueError
  | upstream (status : Nat)
  deriving DecidableEq, Repr

/-- Cache keys.  `cache.py` renders them as the strings
`category:<categoryTypeValue>`, `item:<itemIdentity>` and
`timetable:<itemIdentity>`; the three prefixes never collide and each prefix
is injective in its payload, so the structured form is observationally the
same key space (see `Key.str`). -/
inductive Key
  | category (typeValue : String)
  | item (identity : String)
  | timetable (identity : String)
  deriving DecidableEq, Repr

/-- The exact string rendering of each cache key used by `cache.py`. -/
def Key.str : Key → String
  | .category v => "category:" ++ v
  | .item i => "item:" ++ i
  | .timetable i => "timetable:" ++ i

/-- Values stored in the cache (the resolution layer stores full categories,
single items and timetables; serialization is external). -/
inductive CacheVal
  | cat (c : Category CategoryItem)
  | item (i : CategoryItem)
  | timetable (t : CategoryItemTimetable)
  deriving DecidableEq, Repr

/-- A cache entry: the stored value together with its TTL in seconds
(`ValkeyCache._set` default 1 day; timetables 12 hours). -/
structure CacheEntry where
  val : CacheVal
  ttlSeconds : Nat
  deriving DecidableEq, Repr

/-- The key-value store: an association list, newest binding first.  A set is
a full replacement (`client.set`), modelled by shadowing. -/
abbrev Cache := List (Key × CacheEntry)

/-- `ValkeyCache._set`: full-replacement write with TTL. -/
def cacheSet (c : Cache) (k : Key) (v : CacheVal) (ttl : Nat) : Cache :=
  (k, ⟨v, ttl⟩) :: c

/-- `ValkeyCache._get`: the newest binding for a key, absent (or expired,
which the store reports identically) otherwise. -/
def cacheGet : Cache → Key → Option CacheEntry
  | [], _ => none
  | (k', e) :: rest, k => if k' = k then some e else cacheGet rest k

/-- `ValkeyCache.get_category`. -/
def cacheGetCategory (c : Cache) (ct : CategoryType) : Option (Category CategoryItem) :=
  match cacheGet c (.category ct.value) with
  | some ⟨.cat cat, _⟩ => some cat
  | _ => none

/-- `ValkeyCache.get_category_item` (key `item:<str(uuid)>`). -/
def cacheGetItem (c : Cache) (id : UUID) : Option CategoryItem :=
  match cacheGet c (.item id.canonical) with
  | some ⟨.item i, _⟩ => some i
  | _ => none

/-- `ValkeyCache.get_category_item_timetable` (key `timetable:<str(uuid)>`). -/
def cacheGetTT (c : Cache) (id : UUID) : Option CategoryItemTimetable :=
  match cacheGet c (.timetable id.canonical) with
  | some ⟨.timetable t, _⟩ => some t
  | _ => none

/-- Observable effects: one `pageReq`, `itemReq` or `ttReq` per
`API._fetch_data` call (the transport façade's internal retries are inside
the collaborator), and one `cacheStore` per cache write. -/
inductive Eff
  | pageReq (ct : CategoryType) (page : Nat) (query : String)
  | itemReq (ct : CategoryType) (id : UUID)
  | ttReq (ct : CategoryType) (ids : List UUID) (startRange endRange : Int)
  | cacheStore (key : Key)
  deriving DecidableEq, Repr

/-- Effects that hit the upstream service (everything but cache stores). -/
def Eff.isUpstreamReq : Eff → Bool
  | .cacheStore _ => false
  | _ => true

/-- The upstream requests contained in a trace. -/
def upstreamOf (l : List Eff) : List Eff :=
  l.filter Eff.isUpstreamReq

/-- The cache-store operations contained in a trace. -/
def storesOf (l : List Eff) : List Key :=
  l.filterMap fun e => match e with
    | .cacheStore k => some k
    | _ => none

/-- Program state: the cache contents and the trace of effects so far. -/
structure St where
  cache : Cache
  trace : List Eff
  deriving DecidableEq, Repr

/-- Record an upstream request. -/
def stReq (s : St) (e : Eff) : St :=
  { s with trace := s.trace ++ [e] }

/-- Perform and record a cache write. -/
def stStore (s : St) (k : Key) (v : CacheVal) (ttl : Nat) : St :=
  ⟨cacheSet s.cache k v ttl, s.trace ++ [.cacheStore k]⟩

/-- The wall clock observed by `datetime.datetime.now(utc)` (only the year
and month are read). -/
structure Now where
  year : Int
  month : Int
  deriving DecidableEq, Repr

/-- One page of the category listing endpoint, already parsed
(`TotalPages`, `Count`, `Results`). -/
structure PageData where
  totalPages : Nat
  count : Nat
  results : List CategoryItem
  deriving DecidableEq, Repr

/-- External collaborators: the upstream service (deterministic responses per
request, already including the transport façade's retry behaviour — an
`error` is a failure that exhausted its retries), the stdlib UUID parser, the
rapidfuzz scorer (returns the indices of matches above the 80 percent cutoff,
best first, truncated to the limit), and the wall clock. -/
structure World where
  pageResp : CategoryType → Nat → String → Except Nat PageData
  itemResp : CategoryType → UUID → Except Nat (List CategoryItem)
  ttResp : CategoryType → List UUID → Int → Int → Except Nat (List CategoryItemTimetable)
  parseUUID : String → Option UUID
  fuzzy : String → List String → Option Nat → List Nat
  now : Now

/-- `utils.default_year_start_end_dates`. -/
def defaultYearStartEndDates (now : Now) : Int × Int :=
  let startYear := if now.month ≥ 8 then now.year else now.year - 1
  let endYear := if now.month ≥ 8 then now.year + 1 else now.year
  (mkDate startYear 8 1, mkDate endYear 5 1)

/-- `utils.calc_start_end_range`.  `astimezone(UTC)` is the identity here;
the out-of-academic-year check only logs a warning. -/
def calcStartEndRange (now : Now) (start fin : Option Int) : Except PyErr (Int × Int) :=
  let d := defaultYearStartEndDates now
  let s := start.getD d.1
  let e := fin.getD d.2
  if s > e then .error .valueError else .ok (s, e)

/-- The `query` request parameter built by `fetch_category`:
`query.strip() if query else ""` (for strings this is `query.strip()`, with
absent mapped to the empty string). -/
def queryParam : Option String → String
  | none => ""
  | some q => pyStrip q

/-- The cache-write condition of `fetch_category`:
`query is None or not query.strip()`. -/
def blankQuery : Option String → Bool
  | none => true
  | some q => pyStrip q == ""

/-- Folding the concatenation step of `fetch_category`'s page loop:
`for d in data: if isinstance(d, BaseException): raise d; results.extend(...)`.
The first failed page re-raises; otherwise all page results concatenate. -/
def collectPages : List (Except Nat PageData) → Except Nat (List CategoryItem)
  | [] => .ok []
  | .error c :: _ => .error c
  | .ok d :: rest => (collectPages rest).map (d.results ++ ·)

/-- `API.fetch_category` (with `items_type=CategoryItem`).  Page 1 is fetched
first to learn `TotalPages`; pages `2..totalPages` are all issued
(concurrently in the source) and their results scanned in order, re-raising
the first failure.  On success the category is written to cache exactly when
the query was absent or blank and caching is enabled (`cache` defaults to
`True`). -/
def fetchCategory (w : World) (ct : CategoryType) (query : Option String)
    (useCache? : Option Bool) (s : St) : Except PyErr (Category CategoryItem) × St :=
  let useCache := useCache?.getD true
  let q := queryParam query
  let s1 := stReq s (.pageReq ct 1 q)
  match w.pageResp ct 1 q with
  | .error c => (.error (.upstream c), s1)
  | .ok d1 =>
    let pages := List.range' 2 (d1.totalPages - 1)
    let s2 := pages.foldl (fun acc i => stReq acc (.pageReq ct i q)) s1
    match collectPages (pages.map fun i => w.pageResp ct i q) with
    | .error c => (.error (.upstream c), s2)
    | .ok moreResults =>
      let category : Category CategoryItem := ⟨d1.results ++ moreResults, d1.count⟩
      if blankQuery query && useCache then
        (.ok category, stStore s2 (.category ct.value) (.cat category) 86400)
      else
        (.ok category, s2)

/-- `API.fetch_category` with `items_type=BasicCategoryItem`: same fetch and
caching side effect, the returned items projected through
`BasicCategoryItem(name=item.name, identity=item.identity)`. -/
def fetchCategoryBasic (w : World) (ct : CategoryType) (query : Option String)
    (useCache? : Option Bool) (s : St) : Except PyErr (Category BasicCategoryItem) × St :=
  match fetchCategory w ct query useCache? s with
  | (.error e, s') => (.error e, s')
  | (.ok cat, s') => (.ok ⟨cat.items.map toBasic, cat.count⟩, s')

/-- `API._filter_category_items_for`: rapidfuzz (`World.fuzzy`) selects the
indices of items whose name matches the query above the 80 percent cutoff,
best first, truncated to the limit; the items at those indices are returned.
(rapidfuzz only ever returns valid indices, so the `get?` never drops one.) -/
def filterItemsFor {α : Type} (w : World) (nameOf : α → String)
    (items : List α) (query : String) (limit : Option Nat) : List α :=
  (w.fuzzy query (items.map nameOf) limit).filterMap fun idx => items.get? idx

/-- `API.get_category` with `items_type=BasicCategoryItem` (the instantiation
used by the item resolver).  A pure cache read: on a miss it returns `none`
without calling upstream; the cached full listing decodes into basic items;
a non-blank query applies the fuzzy filter, and the returned `count` is the
filtered length. -/
def getCategoryBasic (w : World) (c : Cache) (ct : CategoryType)
    (query : Option String) (limit : Option Nat) : Option (Category BasicCategoryItem) :=
  match cacheGetCategory c ct with
  | none => none
  | some cat =>
    let bcat : Category BasicCategoryItem := ⟨cat.items.map toBasic, cat.count⟩
    match query with
    | none => some bcat
    | some q =>
      if pyStrip q == "" then some bcat
      else
        let filtered := filterItemsFor w (fun b => b.name) bcat.items q limit
        some ⟨filtered, filtered.length⟩

/-- `API.fetch_category_item`: the direct single-item fetch by identity.  An
empty upstream response raises `InvalidCodeError(item_identity)` (the UUID
object, not a string); otherwise the first payload is parsed and cached
(`cache` defaults to `True`). -/
def fetchCategoryItem (w : World) (ct : CategoryType) (id : UUID)
    (useCache? : Option Bool) (s : St) : Except PyErr CategoryItem × St :=
  let useCache := useCache?.getD true
  let s1 := stReq s (.itemReq ct id)
  match w.itemResp ct id with
  | .error c => (.error (.upstream c), s1)
  | .ok [] => (.error (.invalidCode (InvalidCodeError.raise (.uuidArg id))), s1)
  | .ok (item :: _) =>
    if useCache then
      (.ok item, stStore s1 (.item item.identity) (.item item) 86400)
    else
      (.ok item, s1)

/-- Filtering a timetable's events to `start <= e.start <= end` inclusive
(the filter applied by both timetable read paths). -/
def ttFilter (st en : Int) (tt : CategoryItemTimetable) : CategoryItemTimetable :=
  { tt with events := tt.events.filter fun e => decide (st ≤ e.start) && decide (e.start ≤ en) }

/-- The per-timetable loop of `fetch_category_items_timetables`: each returned
timetable is written to cache **unfiltered** (12 hour TTL), then its events
are filtered to the computed range and the filtered timetable is collected. -/
def processTimetables (useCache : Bool) (st en : Int) :
    List CategoryItemTimetable → St → List CategoryItemTimetable × St
  | [], s => ([], s)
  | tt :: rest, s =>
    let s1 := if useCache then stStore s (.timetable tt.identity) (.timetable tt) 43200 else s
    let r := processTimetables useCache st en rest s1
    (ttFilter st en tt :: r.1, r.2)

/-- `API.fetch_category_items_timetables`: one batched upstream request for
all `ids` of the category type, asking upstream for the **default**
academic-year window, then caching each returned timetable unfiltered and
returning it filtered to the requested range.  Raises before any request when
the requested range is inverted. -/
def fetchCategoryItemsTimetables (w : World) (ct : CategoryType) (ids : List UUID)
    (start fin : Option Int) (useCache? : Option Bool) (s : St) :
    Except PyErr (List CategoryItemTimetable) × St :=
  let useCache := useCache?.getD true
  let sd := (defaultYearStartEndDates w.now).1
  let ed := (defaultYearStartEndDates w.now).2
  match calcStartEndRange w.now start fin with
  | .error e => (.error e, s)
  | .ok (st, en) =>
    let s1 := stReq s (.ttReq ct ids sd ed)
    match w.ttResp ct ids sd ed with
    | .error c => (.error (.upstream c), s1)
    | .ok tts =>
      let r := processTimetables useCache st en tts s1
      (.ok r.1, r.2)

/-- `API.get_category_item_timetable`: a pure cache read.  On a miss it
returns `none` (without validating the range); on a hit, if either bound was
supplied the range is computed (raising on an inverted range) and the cached
events are filtered to it inclusively; with both bounds absent the cached
timetable is returned unfiltered. -/
def getCategoryItemTimetable (w : World) (c : Cache) (id : UUID)
    (start fin : Option Int) : Except PyErr (Option CategoryItemTimetable) :=
  match cacheGetTT c id with
  | none => .ok none
  | some tt =>
    if start.isSome || fin.isSome then
      match calcStartEndRange w.now start fin with
      | .error e => .error e
      | .ok (st, en) => .ok (some (ttFilter st en tt))
    else
      .ok (some tt)

/-- `collections.defaultdict(list)` append: `d[k].append(v)` on an
insertion-ordered dict. -/
def dictAppend {κ α : Type} [DecidableEq κ] :
    List (κ × List α) → κ → α → List (κ × List α)
  | [], k, v => [(k, [v])]
  | (k', vs) :: rest, k, v =>
    if k' = k then (k', vs ++ [v]) :: rest else (k', vs) :: dictAppend rest k v

/-- `resolve_from_uuid` (inner function of `resolve_to_category_items`):
item cache first, then the direct single-item fetch.  (At runtime the source
returns the `CategoryItem` itself; only its identity and name are consumed
downstream, projected here through `toBasic`.) -/
def resolveFromUuid (w : World) (ct : CategoryType) (id : UUID) (s : St) :
    Except PyErr BasicCategoryItem × St :=
  match cacheGetItem s.cache id with
  | some item => (.ok (toBasic item), s)
  | none =>
    match fetchCategoryItem w ct id none s with
    | (.error e, s') => (.error e, s')
    | (.ok item, s') => (.ok (toBasic item), s')

/-- The live-fetch fallback of `resolve_from_code`: a `fetch_category` with
the code as query, taking the first result if any. -/
def resolveFromCodeFallback (w : World) (ct : CategoryType) (code : String) (s : St) :
    Except PyErr (Option BasicCategoryItem) × St :=
  match fetchCategoryBasic w ct (some code) none s with
  | (.error e, s') => (.error e, s')
  | (.ok cat, s') =>
    match cat.items with
    | item :: _ => (.ok (some item), s')
    | [] => (.ok none, s')

/-- `resolve_from_code` (inner function of `resolve_to_category_items`):
cached fuzzy search with `limit=1` first; on a cache miss or an empty fuzzy
match, fall back to the live fetch. -/
def resolveFromCode (w : World) (ct : CategoryType) (code : String) (s : St) :
    Except PyErr (Option BasicCategoryItem) × St :=
  match getCategoryBasic w s.cache ct (some code) (some 1) with
  | some cat =>
    match cat.items with
    | item :: _ => (.ok (some item), s)
    | [] => resolveFromCodeFallback w ct code s
  | none => resolveFromCodeFallback w ct code s

/-- The per-code body of `resolve_to_category_items`' loop: `UUID(code)`
succeeding routes to the identifier path (whose `InvalidCodeError` is not a
`ValueError` and therefore propagates); a parse failure routes to the
free-text path, whose empty result raises `InvalidCodeError(code)`. -/
def resolveInner (w : World) (g : CategoryType) :
    List String → List (CategoryType × List BasicCategoryItem) → St →
    Except PyErr (List (CategoryType × List BasicCategoryItem)) × St
  | [], acc, s => (.ok acc, s)
  | code :: rest, acc, s =>
    match w.parseUUID code with
    | some id =>
      match resolveFromUuid w g id s with
      | (.error e, s') => (.error e, s')
      | (.ok item, s') => resolveInner w g rest (dictAppend acc g item) s'
    | none =>
      match resolveFromCode w g code s with
      | (.error e, s') => (.error e, s')
      | (.ok none, s') => (.error (.invalidCode (InvalidCodeError.raise (.strArg code))), s')
      | (.ok (some item), s') => resolveInner w g rest (dictAppend acc g item) s'

/-- The outer loop of `resolve_to_category_items` over the caller-supplied
groups, in insertion order; one code's failure aborts the whole batch. -/
def resolveOuter (w : World) :
    List (CategoryType × List String) → List (CategoryType × List BasicCategoryItem) → St →
    Except PyErr (List (CategoryType × List BasicCategoryItem)) × St
  | [], acc, s => (.ok acc, s)
  | (g, cs) :: rest, acc, s =>
    match resolveInner w g cs acc s with
    | (.error e, s') => (.error e, s')
    | (.ok acc', s') => resolveOuter w rest acc' s'

/-- `utils.resolve_to_category_items`. -/
def resolveToCategoryItems (w : World) (codes : List (CategoryType × List String))
    (s : St) : Except PyErr (List (CategoryType × List BasicCategoryItem)) × St :=
  resolveOuter w codes [] s

/-- The per-identity body of `gather_events`' first loop: probe the timetable
cache; a hit contributes its (filtered) events, a miss is queued for the
batched fetch.  This loop performs no writes and no upstream requests, so it
is a pure function of the cache. -/
def gatherInner (w : World) (c : Cache) (g : CategoryType) (start fin : Option Int) :
    List UUID → List Event → List (CategoryType × List UUID) →
    Except PyErr (List Event × List (CategoryType × List UUID))
  | [], evs, tf => .ok (evs, tf)
  | id :: ids, evs, tf =>
    match getCategoryItemTimetable w c id start fin with
    | .error e => .error e
    | .ok (some tt) => gatherInner w c g start fin ids (evs ++ tt.events) tf
    | .ok none => gatherInner w c g start fin ids evs (dictAppend tf g id)

/-- The first loop of `gather_events` over all groups. -/
def gatherSplit (w : World) (c : Cache) (start fin : Option Int) :
    List (CategoryType × List UUID) → List Event → List (CategoryType × List UUID) →
    Except PyErr (List Event × List (CategoryType × List UUID))
  | [], evs, tf => .ok (evs, tf)
  | (g, ids) :: rest, evs, tf =>
    match gatherInner w c g start fin ids evs tf with
    | .error e => .error e
    | .ok (evs', tf') => gatherSplit w c start fin rest evs' tf'

/-- The second loop of `gather_events`: one batched
`fetch_category_items_timetables` per category type that had misses, its
returned (filtered) timetables' events appended in upstream-returned order. -/
def gatherFetch (w : World) (start fin : Option Int) :
    List (CategoryType × List UUID) → List Event → St → Except PyErr (List Event) × St
  | [], evs, s => (.ok evs, s)
  | (g, ids) :: rest, evs, s =>
    match fetchCategoryItemsTimetables w g ids start fin none s with
    | (.error e, s') => (.error e, s')
    | (.ok tts, s') => gatherFetch w start fin rest (evs ++ (tts.map fun tt => tt.events).flatten) s'

/-- `utils.gather_events`. -/
def gatherEvents (w : World) (groups : List (CategoryType × List UUID))
    (start fin : Option Int) (s : St) : Except PyErr (List Event) × St :=
  match gatherSplit w s.cache start fin groups [] [] with
  | .error e => (.error e, s)
  | .ok (evs, tf) => gatherFetch w start fin tf evs s

/-! ## Specification-side descriptions

Pure descriptions of what `gather_events` should produce, stated directly
over the initial cache and the upstream collaborator, to compare the stateful
computation against. -/

/-- The events a single cache-hit identity contributes: the cached timetable's
events, filtered to `[st, en]` when at least one bound was supplied.  A
cache-miss identity contributes nothing to the hit phase. -/
def viewEvents (c : Cache) (start fin : Option Int) (st en : Int) (id : UUID) : List Event :=
  match cacheGetTT c id with
  | none => []
  | some tt => (if start.isSome || fin.isSome then ttFilter st en tt else tt).events

/-- All cache-hit events, in the caller's group order and, within a group,
identity order. -/
def hitEventsOf (c : Cache) (start fin : Option Int) (st en : Int)
    (groups : List (CategoryType × List UUID)) : List Event :=
  (groups.map fun p => (p.2.map (viewEvents c start fin st en)).flatten).flatten

/-- The cache-miss identities of one group, in the caller's order. -/
def missIds (c : Cache) (ids : List UUID) : List UUID :=
  ids.filter fun id => (cacheGetTT c id).isNone

/-- The groups that have at least one cache miss, each with exactly its miss
identities, in the caller's group order. -/
def missGroupsOf (c : Cache) (groups : List (CategoryType × List UUID)) :
    List (CategoryType × List UUID) :=
  groups.filterMap fun p =>
    let m := missIds c p.2
    if m.isEmpty then none else some (p.1, m)

/-- The events contributed by the batched fetches: per miss group in order,
the events of the timetables upstream returned for that group's single
batched request, in upstream-returned order, each filtered to `[st, en]`. -/
def missEventsOf (w : World) (st en sd ed : Int)
    (gs : List (CategoryType × List UUID)) : List Event :=
  (gs.map fun p =>
    match w.ttResp p.1 p.2 sd ed with
    | .ok tts => (tts.map fun tt => (ttFilter st en tt).events).flatten
    | .error _ => []).flatten

/-- The cache-store effects emitted while processing a batch of timetables. -/
def storeEffs (tts : List CategoryItemTimetable) : List Eff :=
  tts.map fun tt => Eff.cacheStore (.timetable tt.identity)

/-- The cache after writing a batch of timetables in order. -/
def ttStoreCache (c : Cache) (tts : List CategoryItemTimetable) : Cache :=
  tts.foldl (fun acc tt => cacheSet acc (.timetable tt.identity) (.timetable tt) 43200) c

/-- Repeated `defaultdict` appends of several values under one key. -/
def dictAppendAll {κ α : Type} [DecidableEq κ]
    (d : List (κ × List α)) (k : κ) (vs : List α) : List (κ × List α) :=
  vs.foldl (fun acc v => dictAppend acc k v) d

/-- The keys of an insertion-ordered dict. -/
def keysOf {κ α : Type} (d : List (κ × α)) : List κ :=
  d.map Prod.fst

/-! ## Concrete fixtures

Closed worlds, caches and inputs used by the counterexamples and by the
witnesses that instantiate the theorems' hypotheses. -/

/-- An empty initial state: empty cache, empty trace. -/
def st0 : St := ⟨[], []⟩

/-- A January 2025 clock: the academic year ran from August 2024, so the
default window is `[mkDate 2024 8 1, mkDate 2025 5 1]`. -/
def nowJan25 : Now := ⟨2025, 1⟩

/-- A timetabled event used by the gather fixtures (its start lies inside the
2024-25 academic-year window). -/
def evHit : Event := ⟨"ev-hit", mkDate 2024 10 2, mkDate 2024 10 2 + 3600⟩

/-- An identity whose timetable is cached in the gather fixtures. -/
def uHit : UUID := ⟨"11111111-1111-1111-1111-111111111111"⟩

/-- An identity with no cached timetable in the gather fixtures. -/
def uMiss : UUID := ⟨"22222222-2222-2222-2222-222222222222"⟩

/-- A second uncached identity. -/
def uMiss2 : UUID := ⟨"33333333-3333-3333-3333-333333333333"⟩

/-- The cached timetable of `uHit`. -/
def ttHit : CategoryItemTimetable :=
  ⟨.LOCATIONS, "11111111-1111-1111-1111-111111111111", "GLA.L129", [evHit]⟩

/-- A state whose timetable cache holds exactly `uHit`'s timetable. -/
def stHit : St := ⟨cacheSet [] (.timetable ttHit.identity) (.timetable ttHit) 43200, []⟩

/-- An upstream timetable for an identity: one event starting at the start of
the 2024-25 window, named after the identity. -/
def mkTT (g : CategoryType) (id : UUID) : CategoryItemTimetable :=
  ⟨g, id.canonical, id.canonical, [⟨"ev-" ++ id.canonical, mkDate 2024 10 3, mkDate 2024 10 3 + 3600⟩]⟩

/-- A deterministic world for the gather fixtures: every batched timetable
request succeeds and returns one timetable per requested identity, in request
order; category listing and single-item endpoints are unused. -/
def wGather : World where
  pageResp := fun _ _ _ => .error 500
  itemResp := fun _ _ => .ok []
  ttResp := fun g ids _ _ => .ok (ids.map (mkTT g))
  parseUUID := fun _ => none
  fuzzy := fun _ _ _ => []
  now := nowJan25

/-- A world whose batched timetable endpoint returns the requested
timetables in **reversed** order (the upstream pagination contract promises
no ordering), used to refute the claimed result order of `gather_events`. -/
def wGatherRev : World where
  pageResp := fun _ _ _ => .error 500
  itemResp := fun _ _ => .ok []
  ttResp := fun g ids _ _ => .ok (ids.reverse.map (mkTT g))
  parseUUID := fun _ => none
  fuzzy := fun _ _ _ => []
  now := nowJan25

/-- The CSC1003 module item returned by the category search fixture. -/
def itemCSC : CategoryItem :=
  ⟨some "Computer Programming I", .MODULES, [], "csc1003-identity",
    "CSC1003[1] Computer Programming I", "CSC1003[1]"⟩

/-- A world for the resolver fixtures: every category page request returns a
single-page listing containing just `itemCSC`; nothing parses as a UUID. -/
def wSearch : World where
  pageResp := fun _ _ _ => .ok ⟨1, 1, [itemCSC]⟩
  itemResp := fun _ _ => .ok []
  ttResp := fun _ _ _ _ => .ok []
  parseUUID := fun _ => none
  fuzzy := fun _ _ _ => []
  now := nowJan25

/-- A 32-hexit unhyphenated string that `uuid.UUID` accepts. -/
def rawZero : String := "00000000000000000000000000000000"

/-- The UUID `uuid.UUID(rawZero)` parses to; its canonical form `str(uuid)`
is hyphenated and so differs from `rawZero`. -/
def uZero : UUID := ⟨"00000000-0000-0000-0000-000000000000"⟩

/-- A world for the canonical-identifier fixtures: every raw code parses to
`uZero` and the single-item endpoint reports no item. -/
def wUuidEmpty : World where
  pageResp := fun _ _ _ => .ok ⟨1, 0, []⟩
  itemResp := fun _ _ => .ok []
  ttResp := fun _ _ _ _ => .ok []
  parseUUID := fun _ => some uZero
  fuzzy := fun _ _ _ => []
  now := nowJan25

/-- A world for the pagination fixtures: page 1 of the MODULES listing
reports three pages, page 2 fails (after the transport's retries), page 3
succeeds. -/
def wPageFail : World where
  pageResp := fun _ page _ => if page = 2 then .error 503 else .ok ⟨3, 60, [itemCSC]⟩
  itemResp := fun _ _ => .ok []
  ttResp := fun _ _ _ _ => .ok []
  parseUUID := fun _ => none
  fuzzy := fun _ _ _ => []
  now := nowJan25

/-- An out-of-window event: it starts on 1 July 2024, before the 2024-25
academic-year window opens. -/
def evJuly : Event := ⟨"ev-july", mkDate 2024 7 1, mkDate 2024 7 1 + 3600⟩

/-- A cached timetable wider than the default window: it holds `evJuly`. -/
def ttWide : CategoryItemTimetable :=
  ⟨.MODULES, "44444444-4444-4444-4444-444444444444", "CSC1003[1]", [evJuly]⟩

/-- The identity of `ttWide`. -/
def uWide : UUID := ⟨"44444444-4444-4444-4444-444444444444"⟩

/-- A state whose timetable cache holds exactly `ttWide`. -/
def stWide : St := ⟨cacheSet [] (.timetable ttWide.identity) (.timetable ttWide) 43200, []⟩

/-! ## Helper lemmas -/

theorem upstreamOf_append (a b : List Eff) : upstreamOf (a ++ b) = upstreamOf a ++ upstreamOf b := by
  simp [upstreamOf]

theorem storesOf_append (a b : List Eff) : storesOf (a ++ b) = storesOf a ++ storesOf b := by
  simp [storesOf]

theorem upstreamOf_cons_req (e : Eff) (l : List Eff) (h : e.isUpstreamReq = true) :
    upstreamOf (e :: l) = e :: upstreamOf l := by
  simp [upstreamOf, h]

theorem upstreamOf_storeEffs (tts : List CategoryItemTimetable) : upstreamOf (storeEffs tts) = [] := by
  induction tts with
  | nil => rfl
  | cons tt rest ih => simp [storeEffs, upstreamOf, Eff.isUpstreamReq]

theorem storesOf_map_pageReq (ct : CategoryType) (q : String) (l : List Nat) :
    storesOf (l.map fun i => Eff.pageReq ct i q) = [] := by
  induction l with
  | nil => rfl
  | cons i rest ih => simp [storesOf]

theorem foldl_stReq_cache (f : Nat → Eff) (l : List Nat) (s : St) :
    (l.foldl (fun acc i => stReq acc (f i)) s).cache = s.cache := by
  induction l generalizing s with
  | nil => rfl
  | cons i rest ih => simpa [stReq] using ih (stReq s (f i))

theorem foldl_stReq_trace (f : Nat → Eff) (l : List Nat) (s : St) :
    (l.foldl (fun acc i => stReq acc (f i)) s).trace = s.trace ++ l.map f := by
  induction l generalizing s with
  | nil => simp
  | cons i rest ih =>
    rw [List.foldl_cons, ih (stReq s (f i))]
    simp [stReq]

theorem collectPages_isError {l : List (Except Nat PageData)} {c : Nat}
    (h : Except.error c ∈ l) : ∃ cc, collectPages l = .error cc := by
  induction l with
  | nil => cases h
  | cons x rest ih =>
    cases x with
    | error cc => exact ⟨cc, rfl⟩
    | ok d =>
      rcases List.mem_cons.mp h with hx | hx
      · cases hx
      · rcases ih hx with ⟨cc, hcc⟩
        exact ⟨cc, by simp [collectPages, hcc, Except.map]⟩

theorem cacheGet_cacheSet_self (c : Cache) (k : Key) (v : CacheVal) (ttl : Nat) :
    cacheGet (cacheSet c k v ttl) k = some ⟨v, ttl⟩ := by
  simp [cacheSet, cacheGet]

theorem cacheGet_cacheSet_other (c : Cache) (k k' : Key) (v : CacheVal) (ttl : Nat)
    (h : k ≠ k') : cacheGet (cacheSet c k v ttl) k' = cacheGet c k' := by
  simp [cacheSet, cacheGet, h]

theorem processTimetables_spec (st en : Int) (tts : List CategoryItemTimetable) (s : St) :
    processTimetables true st en tts s =
      (tts.map (ttFilter st en), ⟨ttStoreCache s.cache tts, s.trace ++ storeEffs tts⟩) := by
  induction tts generalizing s with
  | nil => simp [processTimetables, ttStoreCache, storeEffs]
  | cons tt rest ih =>
    simp [processTimetables, ih, stStore, ttStoreCache, storeEffs]

theorem cacheGet_ttStoreCache_notMem (c : Cache) (tts : List CategoryItemTimetable) (k : Key)
    (h : ∀ tt ∈ tts, k ≠ Key.timetable tt.identity) :
    cacheGet (ttStoreCache c tts) k = cacheGet c k := by
  induction tts generalizing c with
  | nil => rfl
  | cons tt rest ih =>
    have hk : k ≠ Key.timetable tt.identity := h tt (by simp)
    have := ih (cacheSet c (.timetable tt.identity) (.timetable tt) 43200)
      (fun t ht => h t (by simp [ht]))
    simpa [ttStoreCache, this] using
      cacheGet_cacheSet_other c (.timetable tt.identity) k (.timetable tt) 43200
        (fun hc => hk hc.symm) ▸ this

theorem cacheGet_ttStoreCache_mem (c : Cache) (tts : List CategoryItemTimetable)
    (tt : CategoryItemTimetable) (hmem : tt ∈ tts)
    (hnodup : (tts.map fun t => t.identity).Nodup) :
    cacheGet (ttStoreCache c tts) (.timetable tt.identity) = some ⟨.timetable tt, 43200⟩ := by
  induction tts generalizing c with
  | nil => cases hmem
  | cons hd rest ih =>
    rcases List.mem_cons.mp hmem with heq | hmem'
    · subst heq
      have hni : tt.identity ∉ rest.map fun t => t.identity := (List.nodup_cons.mp hnodup).1
      have hne : ∀ t ∈ rest, (Key.timetable tt.identity) ≠ Key.timetable t.identity := by
        intro t ht hc
        exact hni (by
          have : tt.identity = t.identity := by injection hc
          rw [this]; exact List.mem_map_of_mem _ ht)
      calc cacheGet (ttStoreCache c (tt :: rest)) (.timetable tt.identity)
          = cacheGet (cacheSet c (.timetable tt.identity) (.timetable tt) 43200)
              (.timetable tt.identity) := by
            simpa [ttStoreCache] using
              cacheGet_ttStoreCache_notMem
                (cacheSet c (.timetable tt.identity) (.timetable tt) 43200) rest
                (.timetable tt.identity) hne
        _ = some ⟨.timetable tt, 43200⟩ := cacheGet_cacheSet_self ..
    · exact (ih (cacheSet c (.timetable hd.identity) (.timetable hd) 43200) hmem'
        (List.nodup_cons.mp hnodup).2)

theorem fetchCategoryItemsTimetables_ok (w : World) (ct : CategoryType) (ids : List UUID)
    (start fin : Option Int) (s : St) (st en : Int) (tts : List CategoryItemTimetable)
    (hcalc : calcStartEndRange w.now start fin = .ok (st, en))
    (hresp : w.ttResp ct ids (defaultYearStartEndDates w.now).1
      (defaultYearStartEndDates w.now).2 = .ok tts) :
    fetchCategoryItemsTimetables w ct ids start fin none s =
      (.ok (tts.map (ttFilter st en)),
        ⟨ttStoreCache s.cache tts,
          s.trace ++ Eff.ttReq ct ids (defaultYearStartEndDates w.now).1
            (defaultYearStartEndDates w.now).2 :: storeEffs tts⟩) := by
  simp [fetchCategoryItemsTimetables, hcalc, hresp, processTimetables_spec, stReq]

theorem fetchCategoryItemsTimetables_invalid (w : World) (ct : CategoryType)
    (ids : List UUID) (a b : Int) (s : St) (hab : a > b) :
    fetchCategoryItemsTimetables w ct ids (some a) (some b) none s = (.error .valueError, s) := by
  unfold fetchCategoryItemsTimetables
  simp [calcStartEndRange, Option.getD, hab]

theorem getCategoryItemTimetable_ok (w : World) (c : Cache) (id : UUID)
    (start fin : Option Int) (st en : Int)
    (hcalc : calcStartEndRange w.now start fin = .ok (st, en)) :
    getCategoryItemTimetable w c id start fin =
      .ok (match cacheGetTT c id with
        | none => none
        | some tt => some (if start.isSome || fin.isSome then ttFilter st en tt else tt)) := by
  unfold getCategoryItemTimetable
  cases cacheGetTT c id with
  | none => rfl
  | some tt =>
    by_cases hs : (start.isSome || fin.isSome) = true
    · simp [hs, hcalc]
    · simp [Bool.not_eq_true] at hs
      simp [hs]

theorem getCategoryItemTimetable_invalid (w : World) (c : Cache) (id : UUID)
    (a b : Int) (hab : a > b) :
    getCategoryItemTimetable w c id (some a) (some b) =
      (match cacheGetTT c id with
        | none => .ok none
        | some _ => .error .valueError) := by
  unfold getCategoryItemTimetable
  cases cacheGetTT c id with
  | none => rfl
  | some tt => simp [calcStartEndRange, Option.getD, hab]

theorem dictAppend_ne_nil {κ α : Type} [DecidableEq κ]
    (d : List (κ × List α)) (k : κ) (v : α) : dictAppend d k v ≠ [] := by
  cases d with
  | nil => simp [dictAppend]
  | cons p rest =>
    obtain ⟨k', vs⟩ := p
    by_cases h : k' = k <;> simp [dictAppend, h]

theorem dictAppend_fresh {κ α : Type} [DecidableEq κ]
    (d : List (κ × List α)) (k : κ) (v : α) (h : k ∉ keysOf d) :
    dictAppend d k v = d ++ [(k, [v])] := by
  induction d with
  | nil => rfl
  | cons p rest ih =>
    obtain ⟨k', vs⟩ := p
    have hne : k' ≠ k := by
      intro hc
      exact h (by simp [keysOf, hc])
    have hk : k ∉ keysOf rest := fun hc => h (by simp [keysOf] at hc ⊢; exact .inr hc)
    simp [dictAppend, hne, ih hk]

theorem dictAppend_snoc {κ α : Type} [DecidableEq κ]
    (d : List (κ × List α)) (k : κ) (acc : List α) (v : α) (h : k ∉ keysOf d) :
    dictAppend (d ++ [(k, acc)]) k v = d ++ [(k, acc ++ [v])] := by
  induction d with
  | nil => simp [dictAppend]
  | cons p rest ih =>
    obtain ⟨k', vs⟩ := p
    have hne : k' ≠ k := by
      intro hc
      exact h (by simp [keysOf, hc])
    have hk : k ∉ keysOf rest := fun hc => h (by simp [keysOf] at hc ⊢; exact .inr hc)
    simp [dictAppend, hne, ih hk]

theorem dictAppendAll_snoc {κ α : Type} [DecidableEq κ]
    (d : List (κ × List α)) (k : κ) (acc vs : List α) (h : k ∉ keysOf d) :
    dictAppendAll (d ++ [(k, acc)]) k vs = d ++ [(k, acc ++ vs)] := by
  induction vs generalizing acc with
  | nil => simp [dictAppendAll]
  | cons v rest ih =>
    show dictAppendAll (dictAppend (d ++ [(k, acc)]) k v) k rest = _
    rw [dictAppend_snoc d k acc v h, ih (acc ++ [v])]
    simp

theorem dictAppendAll_fresh {κ α : Type} [DecidableEq κ]
    (d : List (κ × List α)) (k : κ) (vs : List α) (h : k ∉ keysOf d) :
    dictAppendAll d k vs = if vs.isEmpty then d else d ++ [(k, vs)] := by
  cases vs with
  | nil => simp [dictAppendAll]
  | cons v rest =>
    show dictAppendAll (dictAppend d k v) k rest = _
    rw [dictAppend_fresh d k v h, dictAppendAll_snoc d k [v] rest h]
    simp

theorem dictAppendAll_ne_nil {κ α : Type} [DecidableEq κ]
    (d : List (κ × List α)) (k : κ) (vs : List α) (h : d ≠ [] ∨ vs ≠ []) :
    dictAppendAll d k vs ≠ [] := by
  induction vs generalizing d with
  | nil =>
    rcases h with hd | hv
    · simpa [dictAppendAll] using hd
    · exact absurd rfl hv
  | cons v rest ih =>
    show dictAppendAll (dictAppend d k v) k rest ≠ []
    exact ih (dictAppend d k v) (.inl (dictAppend_ne_nil d k v))

theorem gatherInner_ok (w : World) (c : Cache) (g : CategoryType) (start fin : Option Int)
    (st en : Int) (hcalc : calcStartEndRange w.now start fin = .ok (st, en))
    (ids : List UUID) :
    ∀ (evs : List Event) (tf : List (CategoryType × List UUID)),
      gatherInner w c g start fin ids evs tf =
        .ok (evs ++ (ids.map (viewEvents c start fin st en)).flatten,
          dictAppendAll tf g (missIds c ids)) := by
  induction ids with
  | nil =>
    intro evs tf
    simp [gatherInner, dictAppendAll, missIds]
  | cons id rest ih =>
    intro evs tf
    have hprobe := getCategoryItemTimetable_ok w c id start fin st en hcalc
    cases htt : cacheGetTT c id with
    | none =>
      rw [htt] at hprobe
      simp only [gatherInner, hprobe]
      rw [ih evs (dictAppend tf g id)]
      simp [viewEvents, htt, missIds, dictAppendAll]
    | some tt =>
      rw [htt] at hprobe
      simp only [gatherInner, hprobe]
      rw [ih (evs ++ (if start.isSome || fin.isSome then ttFilter st en tt else tt).events) tf]
      simp [viewEvents, htt, missIds]

theorem gatherSplit_ok (w : World) (c : Cache) (start fin : Option Int) (st en : Int)
    (hcalc : calcStartEndRange w.now start fin = .ok (st, en))
    (groups : List (CategoryType × List UUID)) :
    ∀ (evs : List Event) (tf : List (CategoryType × List UUID)),
      (∀ p ∈ groups, p.1 ∉ keysOf tf) →
      (groups.map Prod.fst).Nodup →
      gatherSplit w c start fin groups evs tf =
        .ok (evs ++ hitEventsOf c start fin st en groups, tf ++ missGroupsOf c groups) := by
  induction groups with
  | nil =>
    intro evs tf _ _
    simp [gatherSplit, hitEventsOf, missGroupsOf]
  | cons p rest ih =>
    intro evs tf hfresh hnodup
    obtain ⟨g, ids⟩ := p
    have hg : g ∉ keysOf tf := hfresh (g, ids) (by simp)
    have hmap : List.map Prod.fst ((g, ids) :: rest) = g :: rest.map Prod.fst := rfl
    rw [hmap] at hnodup
    have hgrest : g ∉ rest.map Prod.fst := (List.nodup_cons.mp hnodup).1
    have hnodup' : (rest.map Prod.fst).Nodup := (List.nodup_cons.mp hnodup).2
    simp only [gatherSplit, gatherInner_ok w c g start fin st en hcalc ids evs tf]
    rw [dictAppendAll_fresh tf g (missIds c ids) hg]
    by_cases hm : (missIds c ids).isEmpty
    · have hmnil : missIds c ids = [] := by simpa using hm
      rw [if_pos hm]
      rw [ih _ tf (fun q hq => hfresh q (by simp [hq])) hnodup']
      simp [hitEventsOf, missGroupsOf, List.filterMap_cons, hmnil]
    · have hmnil : ¬ missIds c ids = [] := by simpa using hm
      rw [if_neg hm]
      have hfresh' : ∀ q ∈ rest, q.1 ∉ keysOf (tf ++ [(g, missIds c ids)]) := by
        intro q hq hmem
        simp [keysOf] at hmem
        rcases hmem with hmem | hmem
        · exact hfresh q (by simp [hq]) (by simp [keysOf]; exact hmem)
        · exact hgrest (by rw [← hmem]; exact List.mem_map_of_mem _ hq)
      rw [ih _ _ hfresh' hnodup']
      simp [hitEventsOf, missGroupsOf, List.filterMap_cons, hmnil]

theorem gatherFetch_ok (w : World) (start fin : Option Int) (st en : Int)
    (hcalc : calcStartEndRange w.now start fin = .ok (st, en))
    (gs : List (CategoryType × List UUID)) :
    ∀ (evs : List Event) (s : St),
      (∀ p ∈ gs, ∃ tts, w.ttResp p.1 p.2 (defaultYearStartEndDates w.now).1
        (defaultYearStartEndDates w.now).2 = .ok tts) →
      (gatherFetch w start fin gs evs s).1 =
        .ok (evs ++ missEventsOf w st en (defaultYearStartEndDates w.now).1
          (defaultYearStartEndDates w.now).2 gs) ∧
      upstreamOf (gatherFetch w start fin gs evs s).2.trace =
        upstreamOf s.trace ++ gs.map (fun p => Eff.ttReq p.1 p.2
          (defaultYearStartEndDates w.now).1 (defaultYearStartEndDates w.now).2) := by
  induction gs with
  | nil =>
    intro evs s _
    simp [gatherFetch, missEventsOf]
  | cons p rest ih =>
    intro evs s hresp
    obtain ⟨g, ids⟩ := p
    obtain ⟨tts, htts⟩ := hresp (g, ids) (by simp)
    have hfetch := fetchCategoryItemsTimetables_ok w g ids start fin s st en tts hcalc htts
    simp only [gatherFetch, hfetch]
    have hrest := ih (evs ++ ((tts.map (ttFilter st en)).map fun tt => tt.events).flatten)
      ⟨ttStoreCache s.cache tts,
        s.trace ++ Eff.ttReq g ids (defaultYearStartEndDates w.now).1
          (defaultYearStartEndDates w.now).2 :: storeEffs tts⟩
      (fun q hq => hresp q (by simp [hq]))
    refine ⟨?_, ?_⟩
    · rw [hrest.1]
      simp [missEventsOf, htts, List.map_map, Function.comp_def]
    · rw [hrest.2]
      rw [upstreamOf_append,
        upstreamOf_cons_req (Eff.ttReq g ids (defaultYearStartEndDates w.now).1
          (defaultYearStartEndDates w.now).2) (storeEffs tts) rfl,
        upstreamOf_storeEffs]
      simp

theorem calcStartEndRange_invalid (now : Now) (a b : Int) (hab : a > b) :
    calcStartEndRange now (some a) (some b) = .error .valueError := by
  simp [calcStartEndRange, hab]

theorem gatherInner_invalid (w : World) (c : Cache) (g : CategoryType) (a b : Int)
    (hab : a > b) (ids : List UUID) :
    ∀ (evs : List Event) (tf : List (CategoryType × List UUID)),
      gatherInner w c g (some a) (some b) ids evs tf = .error .valueError ∨
      gatherInner w c g (some a) (some b) ids evs tf = .ok (evs, dictAppendAll tf g ids) := by
  induction ids with
  | nil =>
    intro evs tf
    right
    simp [gatherInner, dictAppendAll]
  | cons id rest ih =>
    intro evs tf
    have hprobe := getCategoryItemTimetable_invalid w c id a b hab
    cases htt : cacheGetTT c id with
    | some tt =>
      left
      rw [htt] at hprobe
      simp [gatherInner, hprobe]
    | none =>
      rw [htt] at hprobe
      simp only [gatherInner, hprobe]
      have hall : dictAppendAll tf g (id :: rest) = dictAppendAll (dictAppend tf g id) g rest := rfl
      rw [hall]
      exact ih evs (dictAppend tf g id)

theorem gatherSplit_invalid (w : World) (c : Cache) (a b : Int) (hab : a > b)
    (groups : List (CategoryType × List UUID)) :
    ∀ (evs : List Event) (tf : List (CategoryType × List UUID)),
      gatherSplit w c (some a) (some b) groups evs tf = .error .valueError ∨
      ∃ tf', gatherSplit w c (some a) (some b) groups evs tf = .ok (evs, tf') ∧
        ((tf ≠ [] ∨ ∃ p ∈ groups, p.2 ≠ []) → tf' ≠ []) := by
  induction groups with
  | nil =>
    intro evs tf
    right
    refine ⟨tf, by simp [gatherSplit], ?_⟩
    intro h
    rcases h with h | ⟨p, hp, _⟩
    · exact h
    · cases hp
  | cons p rest ih =>
    intro evs tf
    obtain ⟨g, ids⟩ := p
    rcases gatherInner_invalid w c g a b hab ids evs tf with h | h
    · left
      simp [gatherSplit, h]
    · simp only [gatherSplit, h]
      rcases ih evs (dictAppendAll tf g ids) with h2 | ⟨tf', h2, hne⟩
      · left
        exact h2
      · right
        refine ⟨tf', h2, ?_⟩
        intro hcond
        apply hne
        rcases hcond with htf | ⟨q, hq, hqne⟩
        · exact .inl (dictAppendAll_ne_nil tf g ids (.inl htf))
        · rcases List.mem_cons.mp hq with heq | hq'
          · subst heq
            exact .inl (dictAppendAll_ne_nil tf g ids (.inr hqne))
          · exact .inr ⟨q, hq', hqne⟩

theorem missGroupsOf_uncached (c : Cache) (groups : List (CategoryType × List UUID)) :
    ∀ p ∈ missGroupsOf c groups, ∀ id ∈ p.2, cacheGetTT c id = none := by
  intro p hp id hid
  rcases List.mem_filterMap.mp hp with ⟨q, _, hfq⟩
  by_cases hm : (missIds c q.2).isEmpty
  · simp [missGroupsOf, hm] at hfq
  · simp [missGroupsOf, hm] at hfq
    rw [← hfq] at hid
    simp [missIds, List.mem_filter] at hid
    exact hid.2

/-! ## Claim theorems -/

/-- **C1**: for every `gather_events` call (with a valid range and a
responsive upstream), every identity whose timetable is cached causes zero
upstream requests for that identity, and the cache-miss identities of each
category type are fetched in exactly one batched upstream request per type:
the upstream requests added by the call are precisely one `ttReq` per
category type that had at least one miss, carrying exactly that type's miss
identities — and every identity appearing in any of those requests was
uncached, so a cached identity appears in none of them. -/
theorem gather_events_cache_aside_batching (w : World)
    (groups : List (CategoryType × List UUID)) (start fin : Option Int) (s : St)
    (st en : Int)
    (hnodup : (groups.map Prod.fst).Nodup)
    (hcalc : calcStartEndRange w.now start fin = .ok (st, en))
    (hresp : ∀ g m, ∃ tts, w.ttResp g m (defaultYearStartEndDates w.now).1
      (defaultYearStartEndDates w.now).2 = .ok tts) :
    upstreamOf (gatherEvents w groups start fin s).2.trace =
      upstreamOf s.trace ++ (missGroupsOf s.cache groups).map
        (fun p => Eff.ttReq p.1 p.2 (defaultYearStartEndDates w.now).1
          (defaultYearStartEndDates w.now).2) ∧
    ∀ p ∈ missGroupsOf s.cache groups, ∀ id ∈ p.2, cacheGetTT s.cache id = none := by
  have hsplit := gatherSplit_ok w s.cache start fin st en hcalc groups [] []
    (by intro p _ hmem; cases hmem) hnodup
  simp only [List.nil_append] at hsplit
  unfold gatherEvents
  rw [hsplit]
  have hfetch := gatherFetch_ok w start fin st en hcalc (missGroupsOf s.cache groups)
    (hitEventsOf s.cache start fin st en groups) s (fun p _ => hresp p.1 p.2)
  exact ⟨hfetch.2, missGroupsOf_uncached s.cache groups⟩

/-- Hypotheses and conclusion of `gather_events_cache_aside_batching` at a
concrete input: one `LOCATIONS` group with `uHit` cached and `uMiss` not;
the call issues exactly one upstream request, for `[uMiss]` only. -/
theorem gather_events_cache_aside_batching_witness :
    (([(CategoryType.LOCATIONS, [uHit, uMiss])].map Prod.fst).Nodup ∧
      calcStartEndRange wGather.now none none = .ok (mkDate 2024 8 1, mkDate 2025 5 1) ∧
      (∀ g m, ∃ tts, wGather.ttResp g m (defaultYearStartEndDates wGather.now).1
        (defaultYearStartEndDates wGather.now).2 = .ok tts)) ∧
    (upstreamOf (gatherEvents wGather [(CategoryType.LOCATIONS, [uHit, uMiss])]
        none none stHit).2.trace =
      upstreamOf stHit.trace ++ (missGroupsOf stHit.cache
        [(CategoryType.LOCATIONS, [uHit, uMiss])]).map
          (fun p => Eff.ttReq p.1 p.2 (defaultYearStartEndDates wGather.now).1
            (defaultYearStartEndDates wGather.now).2) ∧
      ∀ p ∈ missGroupsOf stHit.cache [(CategoryType.LOCATIONS, [uHit, uMiss])],
        ∀ id ∈ p.2, cacheGetTT stHit.cache id = none) :=
  ⟨⟨by decide, by decide, fun g m => ⟨m.map (mkTT g), rfl⟩⟩,
    gather_events_cache_aside_batching wGather [(CategoryType.LOCATIONS, [uHit, uMiss])]
      none none stHit (mkDate 2024 8 1) (mkDate 2025 5 1) (by decide) (by decide)
      (fun g m => ⟨m.map (mkTT g), rfl⟩)⟩

/-- **C10 (counterexample)**: the claim predicts that the upstream-fetched
events appear in the order the miss identities were encountered.  With both
identities uncached and an upstream that returns the two requested timetables
in reversed order (nothing in the upstream contract promises request order),
`gather_events` returns `uMiss2`'s events before `uMiss`'s — not the claimed
encounter order `uMiss` then `uMiss2`. -/
theorem gather_events_order_counterexample :
    (gatherEvents wGatherRev [(CategoryType.MODULES, [uMiss, uMiss2])] none none st0).1 =
      .ok ((mkTT .MODULES uMiss2).events ++ (mkTT .MODULES uMiss).events) ∧
    (gatherEvents wGatherRev [(CategoryType.MODULES, [uMiss, uMiss2])] none none st0).1 ≠
      .ok ((mkTT .MODULES uMiss).events ++ (mkTT .MODULES uMiss2).events) :=
  ⟨by decide, by decide⟩

/-- **C10 (amended)**: `gather_events` is deterministic given the upstream's
responses, and its result is exactly the cache-hit events first (in the
caller's group and identity order), followed by the events of the batched
fetches — grouped per category type in the order each type first had a miss,
but **within** each category type in the order upstream returned the
timetables, which need not match the order the miss identities were
encountered. -/
theorem gather_events_order_characterization (w : World)
    (groups : List (CategoryType × List UUID)) (start fin : Option Int) (s : St)
    (st en : Int)
    (hnodup : (groups.map Prod.fst).Nodup)
    (hcalc : calcStartEndRange w.now start fin = .ok (st, en))
    (hresp : ∀ g m, ∃ tts, w.ttResp g m (defaultYearStartEndDates w.now).1
      (defaultYearStartEndDates w.now).2 = .ok tts) :
    (gatherEvents w groups start fin s).1 =
      .ok (hitEventsOf s.cache start fin st en groups ++
        missEventsOf w st en (defaultYearStartEndDates w.now).1
          (defaultYearStartEndDates w.now).2 (missGroupsOf s.cache groups)) := by
  have hsplit := gatherSplit_ok w s.cache start fin st en hcalc groups [] []
    (by intro p _ hmem; cases hmem) hnodup
  simp only [List.nil_append] at hsplit
  unfold gatherEvents
  rw [hsplit]
  exact (gatherFetch_ok w start fin st en hcalc (missGroupsOf s.cache groups)
    (hitEventsOf s.cache start fin st en groups) s (fun p _ => hresp p.1 p.2)).1

/-- Hypotheses and conclusion of `gather_events_order_characterization` at a
concrete input (one group, `uHit` cached, `uMiss` not): the result is the
cached events followed by the batch-fetched events. -/
theorem gather_events_order_characterization_witness :
    (([(CategoryType.LOCATIONS, [uHit, uMiss])].map Prod.fst).Nodup ∧
      calcStartEndRange wGather.now none none = .ok (mkDate 2024 8 1, mkDate 2025 5 1) ∧
      (∀ g m, ∃ tts, wGather.ttResp g m (defaultYearStartEndDates wGather.now).1
        (defaultYearStartEndDates wGather.now).2 = .ok tts)) ∧
    (gatherEvents wGather [(CategoryType.LOCATIONS, [uHit, uMiss])] none none stHit).1 =
      .ok (hitEventsOf stHit.cache none none (mkDate 2024 8 1) (mkDate 2025 5 1)
          [(CategoryType.LOCATIONS, [uHit, uMiss])] ++
        missEventsOf wGather (mkDate 2024 8 1) (mkDate 2025 5 1)
          (defaultYearStartEndDates wGather.now).1 (defaultYearStartEndDates wGather.now).2
          (missGroupsOf stHit.cache [(CategoryType.LOCATIONS, [uHit, uMiss])])) :=
  ⟨⟨by decide, by decide, fun g m => ⟨m.map (mkTT g), rfl⟩⟩,
    gather_events_order_characterization wGather [(CategoryType.LOCATIONS, [uHit, uMiss])]
      none none stHit (mkDate 2024 8 1) (mkDate 2025 5 1) (by decide) (by decide)
      (fun g m => ⟨m.map (mkTT g), rfl⟩)⟩

/-- **C6 (counterexample)**: a timetable request naming no identities is not
rejected even when its start date is strictly after its end date: the gather
call returns an empty event list successfully and the `InvalidRange` error is
never surfaced to the caller (the range is only validated inside the per-hit
read and the per-group batched fetch, neither of which runs here). -/
theorem gather_events_invalid_range_empty_request_counterexample :
    gatherEvents wGather [] (some (mkDate 2024 10 7)) (some (mkDate 2024 10 1)) st0 =
      (.ok [], st0) ∧
    mkDate 2024 10 1 < mkDate 2024 10 7 :=
  ⟨by decide, by decide⟩

/-- **C6 (amended)**: for every timetable request naming at least one
identity whose start date is after its end date, the request fails with the
`InvalidRange` error (`ValueError`) and the state is returned unchanged —
so no cache store operation and no upstream fetch happens, and the error is
surfaced to the caller.  (A request naming no identities instead returns an
empty list without validating the range.) -/
theorem gather_events_invalid_range_rejected (w : World)
    (groups : List (CategoryType × List UUID)) (a b : Int) (s : St)
    (hab : a > b) (hne : ∃ p ∈ groups, p.2 ≠ []) :
    gatherEvents w groups (some a) (some b) s = (.error .valueError, s) := by
  unfold gatherEvents
  rcases gatherSplit_invalid w s.cache a b hab groups [] [] with h | ⟨tf', h, hti⟩
  · rw [h]
  · rw [h]
    have htf : tf' ≠ [] := hti (.inr hne)
    cases tf' with
    | nil => exact absurd rfl htf
    | cons p rest =>
      obtain ⟨g, ids⟩ := p
      simp [gatherFetch, fetchCategoryItemsTimetables_invalid w g ids a b s hab]

/-- Hypotheses and conclusion of `gather_events_invalid_range_rejected` at a
concrete input: one nonempty group, inverted range, immediate rejection with
the state untouched. -/
theorem gather_events_invalid_range_rejected_witness :
    (mkDate 2024 10 7 > mkDate 2024 10 1 ∧
      ∃ p ∈ [(CategoryType.LOCATIONS, [uHit, uMiss])], p.2 ≠ []) ∧
    gatherEvents wGather [(CategoryType.LOCATIONS, [uHit, uMiss])]
      (some (mkDate 2024 10 7)) (some (mkDate 2024 10 1)) stHit =
      (.error .valueError, stHit) :=
  ⟨⟨by decide, ⟨(CategoryType.LOCATIONS, [uHit, uMiss]), by decide, by decide⟩⟩,
    gather_events_invalid_range_rejected wGather [(CategoryType.LOCATIONS, [uHit, uMiss])]
      (mkDate 2024 10 7) (mkDate 2024 10 1) stHit (by decide)
      ⟨(CategoryType.LOCATIONS, [uHit, uMiss]), by decide, by decide⟩⟩

/-- **C4**: a successful cache-miss batch fetch (with distinct returned
identities) asks upstream for the maximal default academic-year window — the
single upstream request carries the default window, not the requested range —
returns to the caller every timetable with its events filtered to the
requested `[st, en]`, and writes every timetable to cache **unfiltered**
(full window, 12 hour TTL), so a later request with a different range can be
served from cache. -/
theorem fetch_timetables_full_window_cache_filtered_return (w : World)
    (ct : CategoryType) (ids : List UUID) (start fin : Option Int) (s : St)
    (st en : Int) (tts : List CategoryItemTimetable)
    (hcalc : calcStartEndRange w.now start fin = .ok (st, en))
    (hresp : w.ttResp ct ids (defaultYearStartEndDates w.now).1
      (defaultYearStartEndDates w.now).2 = .ok tts)
    (hnodup : (tts.map fun t => t.identity).Nodup) :
    (fetchCategoryItemsTimetables w ct ids start fin none s).1 =
      .ok (tts.map (ttFilter st en)) ∧
    upstreamOf (fetchCategoryItemsTimetables w ct ids start fin none s).2.trace =
      upstreamOf s.trace ++ [Eff.ttReq ct ids (defaultYearStartEndDates w.now).1
        (defaultYearStartEndDates w.now).2] ∧
    ∀ tt ∈ tts, cacheGet (fetchCategoryItemsTimetables w ct ids start fin none s).2.cache
      (.timetable tt.identity) = some ⟨.timetable tt, 43200⟩ := by
  have h := fetchCategoryItemsTimetables_ok w ct ids start fin s st en tts hcalc hresp
  rw [h]
  refine ⟨rfl, ?_, ?_⟩
  · rw [upstreamOf_append,
      upstreamOf_cons_req (Eff.ttReq ct ids (defaultYearStartEndDates w.now).1
        (defaultYearStartEndDates w.now).2) (storeEffs tts) rfl,
      upstreamOf_storeEffs]
  · intro tt htt
    exact cacheGet_ttStoreCache_mem s.cache tts tt htt hnodup

/-- Hypotheses and conclusion of
`fetch_timetables_full_window_cache_filtered_return` at a concrete input:
a batch fetch for `[uMiss]` over the explicit range 1-7 October 2024 asks
upstream for the default window, returns the filtered timetable, and caches
the unfiltered one. -/
theorem fetch_timetables_full_window_witness :
    (calcStartEndRange wGather.now (some (mkDate 2024 10 1)) (some (mkDate 2024 10 7)) =
        .ok (mkDate 2024 10 1, mkDate 2024 10 7) ∧
      wGather.ttResp .LOCATIONS [uMiss] (defaultYearStartEndDates wGather.now).1
        (defaultYearStartEndDates wGather.now).2 = .ok [mkTT .LOCATIONS uMiss] ∧
      (([mkTT .LOCATIONS uMiss].map fun t => t.identity).Nodup)) ∧
    ((fetchCategoryItemsTimetables wGather .LOCATIONS [uMiss]
        (some (mkDate 2024 10 1)) (some (mkDate 2024 10 7)) none st0).1 =
      .ok ([mkTT .LOCATIONS uMiss].map (ttFilter (mkDate 2024 10 1) (mkDate 2024 10 7))) ∧
      upstreamOf (fetchCategoryItemsTimetables wGather .LOCATIONS [uMiss]
        (some (mkDate 2024 10 1)) (some (mkDate 2024 10 7)) none st0).2.trace =
        upstreamOf st0.trace ++ [Eff.ttReq .LOCATIONS [uMiss]
          (defaultYearStartEndDates wGather.now).1 (defaultYearStartEndDates wGather.now).2] ∧
      ∀ tt ∈ [mkTT .LOCATIONS uMiss],
        cacheGet (fetchCategoryItemsTimetables wGather .LOCATIONS [uMiss]
          (some (mkDate 2024 10 1)) (some (mkDate 2024 10 7)) none st0).2.cache
          (.timetable tt.identity) = some ⟨.timetable tt, 43200⟩) :=
  ⟨⟨by decide, by decide, by decide⟩,
    fetch_timetables_full_window_cache_filtered_return wGather .LOCATIONS [uMiss]
      (some (mkDate 2024 10 1)) (some (mkDate 2024 10 7)) st0
      (mkDate 2024 10 1) (mkDate 2024 10 7) [mkTT .LOCATIONS uMiss]
      (by decide) (by decide) (by decide)⟩

/-- **C7 (counterexample)**: the claim says a cache-hit read filters to the
default academic-year window when both bounds are absent.  It does not: with
both bounds absent the cached timetable is returned unfiltered, here keeping
an event that starts before the default window opens (1 July versus a window
opening 1 August). -/
theorem get_timetable_no_default_filter_counterexample :
    getCategoryItemTimetable wGather stWide.cache uWide none none = .ok (some ttWide) ∧
    ttWide.events = [evJuly] ∧
    evJuly.start < (defaultYearStartEndDates wGather.now).1 :=
  ⟨by decide, by decide, by decide⟩

/-- **C7 (amended)**: a cache-hit timetable read returns exactly the cached
events whose start lies in `[st, en]` inclusive **provided at least one
bound was supplied** (the default is substituted for the absent bound via
`calc_start_end_range`), regardless of how wide the cached window is; with
both bounds absent the cached event list is returned unfiltered (no default
window is applied). -/
theorem get_timetable_cache_hit_filtering (w : World) (c : Cache) (id : UUID)
    (tt : CategoryItemTimetable) (start fin : Option Int) (st en : Int)
    (hhit : cacheGetTT c id = some tt) :
    ((start.isSome || fin.isSome) = true →
      calcStartEndRange w.now start fin = .ok (st, en) →
      getCategoryItemTimetable w c id start fin =
        .ok (some ⟨tt.categoryType, tt.identity, tt.name,
          tt.events.filter fun e => decide (st ≤ e.start) && decide (e.start ≤ en)⟩)) ∧
    getCategoryItemTimetable w c id none none = .ok (some tt) := by
  constructor
  · intro hsome hcalc
    rw [getCategoryItemTimetable_ok w c id start fin st en hcalc, hhit]
    simp [hsome, ttFilter]
  · simp [getCategoryItemTimetable, hhit]

/-- Hypotheses and conclusion of `get_timetable_cache_hit_filtering` at a
concrete input: a hit on `ttWide` with an explicit October range filters out
its July event; the same hit with no bounds returns it unfiltered. -/
theorem get_timetable_cache_hit_filtering_witness :
    (cacheGetTT stWide.cache uWide = some ttWide ∧
      ((some (mkDate 2024 10 1)).isSome || (some (mkDate 2024 10 7)).isSome) = true ∧
      calcStartEndRange wGather.now (some (mkDate 2024 10 1)) (some (mkDate 2024 10 7)) =
        .ok (mkDate 2024 10 1, mkDate 2024 10 7)) ∧
    (getCategoryItemTimetable wGather stWide.cache uWide
        (some (mkDate 2024 10 1)) (some (mkDate 2024 10 7)) =
      .ok (some ⟨ttWide.categoryType, ttWide.identity, ttWide.name,
        ttWide.events.filter fun e =>
          decide (mkDate 2024 10 1 ≤ e.start) && decide (e.start ≤ mkDate 2024 10 7)⟩) ∧
      getCategoryItemTimetable wGather stWide.cache uWide none none = .ok (some ttWide)) :=
  ⟨⟨by decide, by decide, by decide⟩,
    ⟨(get_timetable_cache_hit_filtering wGather stWide.cache uWide ttWide
        (some (mkDate 2024 10 1)) (some (mkDate 2024 10 7))
        (mkDate 2024 10 1) (mkDate 2024 10 7) (by decide)).1 (by decide) (by decide),
      (get_timetable_cache_hit_filtering wGather stWide.cache uWide ttWide
        (some (mkDate 2024 10 1)) (some (mkDate 2024 10 7))
        (mkDate 2024 10 1) (mkDate 2024 10 7) (by decide)).2⟩⟩

/-- **C2**: if, in a multi-page category fetch, any single page in range
`2..totalPages` fails after the transport's retries are exhausted, the whole
`fetch_category` call raises the upstream failure and the cache is left
completely unchanged — in particular no partial listing is written for that
category type. -/
theorem fetch_category_all_or_nothing (w : World) (ct : CategoryType)
    (query : Option String) (useCache? : Option Bool) (s : St)
    (d1 : PageData) (i c : Nat)
    (h1 : w.pageResp ct 1 (queryParam query) = .ok d1)
    (hi2 : 2 ≤ i) (hile : i ≤ d1.totalPages)
    (hfail : w.pageResp ct i (queryParam query) = .error c) :
    (∃ cc, (fetchCategory w ct query useCache? s).1 = .error (.upstream cc)) ∧
    (fetchCategory w ct query useCache? s).2.cache = s.cache ∧
    cacheGetCategory (fetchCategory w ct query useCache? s).2.cache ct =
      cacheGetCategory s.cache ct := by
  have hmem : i ∈ List.range' 2 (d1.totalPages - 1) := by
    rw [List.mem_range'_1]
    omega
  have hmem2 : Except.error c ∈ (List.range' 2 (d1.totalPages - 1)).map
      (fun j => w.pageResp ct j (queryParam query)) := by
    exact List.mem_map.mpr ⟨i, hmem, hfail⟩
  rcases collectPages_isError hmem2 with ⟨cc, hcc⟩
  have hcache : (fetchCategory w ct query useCache? s).2.cache = s.cache := by
    simp only [fetchCategory, h1, hcc]
    have := foldl_stReq_cache (fun j => Eff.pageReq ct j (queryParam query))
      (List.range' 2 (d1.totalPages - 1)) (stReq s (.pageReq ct 1 (queryParam query)))
    rw [this]
    rfl
  refine ⟨⟨cc, ?_⟩, hcache, by rw [hcache]⟩
  simp only [fetchCategory, h1, hcc]

/-- Hypotheses and conclusion of `fetch_category_all_or_nothing` at a
concrete input: page 1 of 3 succeeds, page 2 fails after retries; the fetch
raises and the cache stays empty. -/
theorem fetch_category_all_or_nothing_witness :
    (wPageFail.pageResp .MODULES 1 (queryParam none) = .ok ⟨3, 60, [itemCSC]⟩ ∧
      (2 : Nat) ≤ 2 ∧ (2 : Nat) ≤ (3 : Nat) ∧
      wPageFail.pageResp .MODULES 2 (queryParam none) = .error 503) ∧
    ((∃ cc, (fetchCategory wPageFail .MODULES none none st0).1 = .error (.upstream cc)) ∧
      (fetchCategory wPageFail .MODULES none none st0).2.cache = st0.cache ∧
      cacheGetCategory (fetchCategory wPageFail .MODULES none none st0).2.cache .MODULES =
        cacheGetCategory st0.cache .MODULES) :=
  ⟨⟨by decide, by decide, by decide, by decide⟩,
    fetch_category_all_or_nothing wPageFail .MODULES none none st0
      ⟨3, 60, [itemCSC]⟩ 2 503 (by decide) (by decide) (by decide) (by decide)⟩

/-- **C3**: a successful `fetch_category` writes the fetched category to the
category cache **if and only if** the query was absent or blank after
stripping and caching is enabled (`cache` defaults to `True`): the call emits
exactly one store of the category key when that condition holds (and the
cached entry is the fetched category with its 24 hour TTL), and emits no
store and leaves the cache untouched otherwise — so a fetch with a non-empty
query never overwrites the cached full listing. -/
theorem fetch_category_cache_write_iff_blank_query (w : World) (ct : CategoryType)
    (query : Option String) (useCache? : Option Bool) (s : St)
    (cat : Category CategoryItem) (s2 : St)
    (hok : fetchCategory w ct query useCache? s = (.ok cat, s2)) :
    storesOf s2.trace = storesOf s.trace ++
      (if blankQuery query && useCache?.getD true then [Key.category ct.value] else []) ∧
    ((blankQuery query && useCache?.getD true) = true →
      cacheGet s2.cache (.category ct.value) = some ⟨.cat cat, 86400⟩) ∧
    ((blankQuery query && useCache?.getD true) = false → s2.cache = s.cache) := by
  simp only [fetchCategory] at hok
  cases h1 : w.pageResp ct 1 (queryParam query) with
  | error c =>
    simp only [h1] at hok
    exact absurd (congrArg Prod.fst hok) (by simp)
  | ok d1 =>
    simp only [h1] at hok
    cases hcol : collectPages ((List.range' 2 (d1.totalPages - 1)).map
        fun i => w.pageResp ct i (queryParam query)) with
    | error c =>
      simp only [hcol] at hok
      exact absurd (congrArg Prod.fst hok) (by simp)
    | ok more =>
      simp only [hcol] at hok
      have htr := foldl_stReq_trace (fun j => Eff.pageReq ct j (queryParam query))
        (List.range' 2 (d1.totalPages - 1)) (stReq s (.pageReq ct 1 (queryParam query)))
      have hca := foldl_stReq_cache (fun j => Eff.pageReq ct j (queryParam query))
        (List.range' 2 (d1.totalPages - 1)) (stReq s (.pageReq ct 1 (queryParam query)))
      cases hcond : blankQuery query && useCache?.getD true with
      | true =>
        rw [if_pos hcond] at hok
        have hcat : cat = ⟨d1.results ++ more, d1.count⟩ :=
          (Except.ok.inj (congrArg Prod.fst hok)).symm
        have hs2 := (congrArg Prod.snd hok).symm
        subst hs2
        subst hcat
        refine ⟨?_, ?_, ?_⟩
        · simp only [hcond, if_true, stStore]
          rw [storesOf_append, htr, storesOf_append]
          simp [storesOf, storesOf_append, storesOf_map_pageReq, stReq]
        · intro _
          simp only [stStore]
          exact cacheGet_cacheSet_self ..
        · intro hfalse
          exact absurd hfalse (by decide)
      | false =>
        rw [if_neg (by simp [hcond])] at hok
        have hs2 := (congrArg Prod.snd hok).symm
        subst hs2
        refine ⟨?_, ?_, ?_⟩
        · simp only [hcond, if_false]
          rw [htr, storesOf_append]
          simp [storesOf, storesOf_append, storesOf_map_pageReq, stReq]
        · intro htrue
          exact absurd htrue (by decide)
        · intro _
          rw [hca]
          rfl

/-- Hypotheses and conclusion of `fetch_category_cache_write_iff_blank_query`
at a concrete input: a successful single-page fetch with the non-blank query
`CSC1003` emits no cache store and leaves the cache untouched. -/
theorem fetch_category_cache_write_iff_blank_query_witness :
    fetchCategory wSearch .MODULES (some "CSC1003") none st0 =
      (.ok ⟨[itemCSC], 1⟩, ⟨[], [.pageReq .MODULES 1 "CSC1003"]⟩) ∧
    (storesOf (⟨[], [.pageReq .MODULES 1 "CSC1003"]⟩ : St).trace = storesOf st0.trace ++
      (if blankQuery (some "CSC1003") && (none : Option Bool).getD true
        then [Key.category CategoryType.MODULES.value] else []) ∧
      ((blankQuery (some "CSC1003") && (none : Option Bool).getD true) = true →
        cacheGet (⟨[], [.pageReq .MODULES 1 "CSC1003"]⟩ : St).cache
          (.category CategoryType.MODULES.value) = some ⟨.cat ⟨[itemCSC], 1⟩, 86400⟩) ∧
      ((blankQuery (some "CSC1003") && (none : Option Bool).getD true) = false →
        (⟨[], [.pageReq .MODULES 1 "CSC1003"]⟩ : St).cache = st0.cache)) :=
  ⟨by decide, fetch_category_cache_write_iff_blank_query wSearch .MODULES (some "CSC1003")
    none st0 ⟨[itemCSC], 1⟩ ⟨[], [.pageReq .MODULES 1 "CSC1003"]⟩ (by decide)⟩

/-- **C5**: when a raw code parses as a canonical identifier, resolution uses
only the item-cache lookup and the direct single-item fetch: the call adds no
upstream request at all when the item is cached and exactly the one
single-item request otherwise — never a category-search (`pageReq`) request,
so the fuzzy-text path is never attempted; a cached item is returned as-is;
and when upstream reports no item for the identifier, resolution fails hard
with `InvalidCodeError` (not retried as a text search). -/
theorem resolve_uuid_no_text_search (w : World) (ct : CategoryType) (code : String)
    (id : UUID) (s : St) (hparse : w.parseUUID code = some id) :
    upstreamOf (resolveToCategoryItems w [(ct, [code])] s).2.trace =
      upstreamOf s.trace ++
        (if (cacheGetItem s.cache id).isSome then [] else [Eff.itemReq ct id]) ∧
    (∀ item, cacheGetItem s.cache id = some item →
      (resolveToCategoryItems w [(ct, [code])] s).1 = .ok [(ct, [toBasic item])]) ∧
    ((cacheGetItem s.cache id = none ∧ w.itemResp ct id = .ok []) →
      (resolveToCategoryItems w [(ct, [code])] s).1 =
        .error (.invalidCode (InvalidCodeError.raise (.uuidArg id)))) := by
  cases hci : cacheGetItem s.cache id with
  | some item =>
    have hres : resolveToCategoryItems w [(ct, [code])] s = (.ok [(ct, [toBasic item])], s) := by
      simp [resolveToCategoryItems, resolveOuter, resolveInner, hparse, resolveFromUuid,
        hci, dictAppend]
    rw [hres]
    refine ⟨by simp [hci], ?_, ?_⟩
    · intro item' hitem'
      cases hitem'
      rfl
    · rintro ⟨hnone, _⟩
      simp at hnone
  | none =>
    cases hir : w.itemResp ct id with
    | error c =>
      have hres : resolveToCategoryItems w [(ct, [code])] s =
          (.error (.upstream c), stReq s (.itemReq ct id)) := by
        simp [resolveToCategoryItems, resolveOuter, resolveInner, hparse, resolveFromUuid,
          hci, fetchCategoryItem, hir]
      rw [hres]
      refine ⟨?_, ?_, ?_⟩
      · simp [hci, stReq, upstreamOf, Eff.isUpstreamReq]
      · intro item' hitem'
        simp at hitem'
      · rintro ⟨_, hok⟩
        simp at hok
    | ok lst =>
      cases lst with
      | nil =>
        have hres : resolveToCategoryItems w [(ct, [code])] s =
            (.error (.invalidCode (InvalidCodeError.raise (.uuidArg id))),
              stReq s (.itemReq ct id)) := by
          simp [resolveToCategoryItems, resolveOuter, resolveInner, hparse, resolveFromUuid,
            hci, fetchCategoryItem, hir]
        rw [hres]
        refine ⟨?_, ?_, ?_⟩
        · simp [hci, stReq, upstreamOf, Eff.isUpstreamReq]
        · intro item' hitem'
          simp at hitem'
        · intro _
          rfl
      | cons item rest =>
        have hres : resolveToCategoryItems w [(ct, [code])] s =
            (.ok [(ct, [toBasic item])],
              stStore (stReq s (.itemReq ct id)) (.item item.identity) (.item item) 86400) := by
          simp [resolveToCategoryItems, resolveOuter, resolveInner, hparse, resolveFromUuid,
            hci, fetchCategoryItem, hir, dictAppend]
        rw [hres]
        refine ⟨?_, ?_, ?_⟩
        · simp [hci, stStore, stReq, upstreamOf, Eff.isUpstreamReq]
        · intro item' hitem'
          simp at hitem'
        · rintro ⟨_, hok⟩
          simp at hok

/-- Hypotheses and conclusion of `resolve_uuid_no_text_search` at a concrete
input: a code parsing to `uZero`, no cached item, upstream reporting no item;
resolution makes exactly the one single-item request (no category-search
request) and fails with `InvalidCodeError`. -/
theorem resolve_uuid_no_text_search_witness :
    wUuidEmpty.parseUUID rawZero = some uZero ∧
    (upstreamOf (resolveToCategoryItems wUuidEmpty [(.MODULES, [rawZero])] st0).2.trace =
      upstreamOf st0.trace ++
        (if (cacheGetItem st0.cache uZero).isSome then []
          else [Eff.itemReq .MODULES uZero]) ∧
      (∀ item, cacheGetItem st0.cache uZero = some item →
        (resolveToCategoryItems wUuidEmpty [(.MODULES, [rawZero])] st0).1 =
          .ok [(.MODULES, [toBasic item])]) ∧
      ((cacheGetItem st0.cache uZero = none ∧ wUuidEmpty.itemResp .MODULES uZero = .ok []) →
        (resolveToCategoryItems wUuidEmpty [(.MODULES, [rawZero])] st0).1 =
          .error (.invalidCode (InvalidCodeError.raise (.uuidArg uZero))))) :=
  ⟨rfl, resolve_uuid_no_text_search wUuidEmpty .MODULES rawZero uZero st0 rfl⟩

/-- **C8 (counterexample)**: the claim predicts that after the first
`resolve(MODULES, "CSC1003")` falls through to a live query fetch, a second
identical resolve is served from the now-populated category cache with zero
upstream calls.  In fact `fetch_category` never caches a query fetch: after
the first resolve the category cache is still empty, and the second resolve
performs another upstream category-search request (two in total). -/
theorem resolve_query_fetch_not_cached_counterexample :
    (resolveToCategoryItems wSearch [(.MODULES, ["CSC1003"])] st0).1 =
      .ok [(.MODULES, [toBasic itemCSC])] ∧
    cacheGetCategory (resolveToCategoryItems wSearch [(.MODULES, ["CSC1003"])] st0).2.cache
      .MODULES = none ∧
    upstreamOf (resolveToCategoryItems wSearch [(.MODULES, ["CSC1003"])]
        (resolveToCategoryItems wSearch [(.MODULES, ["CSC1003"])] st0).2).2.trace =
      [.pageReq .MODULES 1 "CSC1003", .pageReq .MODULES 1 "CSC1003"] :=
  ⟨by decide, by decide, by decide⟩

/-- **C8 (amended)**: starting from an empty category cache, a resolve that
is not a canonical identifier falls through to a live category fetch with the
code as query and returns the first matching item, but — because query
fetches are never written to cache — the category cache remains empty, and a
subsequent identical resolve again misses the cache and performs exactly one
more live upstream fetch (it is **not** served from cache with zero upstream
calls). -/
theorem resolve_text_fallback_does_not_populate_cache (w : World) (ct : CategoryType)
    (code : String) (s : St) (item : CategoryItem) (cnt : Nat) (rest : List CategoryItem)
    (hparse : w.parseUUID code = none)
    (hmiss : cacheGetCategory s.cache ct = none)
    (hq : pyStrip code = code) (hne : code ≠ "")
    (hpage : w.pageResp ct 1 code = .ok ⟨1, cnt, item :: rest⟩) :
    resolveToCategoryItems w [(ct, [code])] s =
      (.ok [(ct, [toBasic item])], stReq s (.pageReq ct 1 code)) ∧
    cacheGetCategory (stReq s (.pageReq ct 1 code)).cache ct = none ∧
    resolveToCategoryItems w [(ct, [code])] (stReq s (.pageReq ct 1 code)) =
      (.ok [(ct, [toBasic item])],
        stReq (stReq s (.pageReq ct 1 code)) (.pageReq ct 1 code)) := by
  have key : ∀ s1 : St, cacheGetCategory s1.cache ct = none →
      resolveToCategoryItems w [(ct, [code])] s1 =
        (.ok [(ct, [toBasic item])], stReq s1 (.pageReq ct 1 code)) := by
    intro s1 hm
    simp [resolveToCategoryItems, resolveOuter, resolveInner, hparse, resolveFromCode,
      getCategoryBasic, hm, resolveFromCodeFallback, fetchCategoryBasic, fetchCategory,
      queryParam, hq, hpage, blankQuery, hne, collectPages, dictAppend, List.range']
  have hmiss' : cacheGetCategory (stReq s (.pageReq ct 1 code)).cache ct = none := hmiss
  exact ⟨key s hmiss, hmiss', key (stReq s (.pageReq ct 1 code)) hmiss'⟩

/-- Hypotheses and conclusion of
`resolve_text_fallback_does_not_populate_cache` at a concrete input: the
CSC1003 scenario from an empty cache. -/
theorem resolve_text_fallback_witness :
    (wSearch.parseUUID "CSC1003" = none ∧
      cacheGetCategory st0.cache .MODULES = none ∧
      pyStrip "CSC1003" = "CSC1003" ∧ "CSC1003" ≠ "" ∧
      wSearch.pageResp .MODULES 1 "CSC1003" = .ok ⟨1, 1, [itemCSC]⟩) ∧
    (resolveToCategoryItems wSearch [(.MODULES, ["CSC1003"])] st0 =
      (.ok [(.MODULES, [toBasic itemCSC])], stReq st0 (.pageReq .MODULES 1 "CSC1003")) ∧
      cacheGetCategory (stReq st0 (.pageReq .MODULES 1 "CSC1003")).cache .MODULES = none ∧
      resolveToCategoryItems wSearch [(.MODULES, ["CSC1003"])]
          (stReq st0 (.pageReq .MODULES 1 "CSC1003")) =
        (.ok [(.MODULES, [toBasic itemCSC])],
          stReq (stReq st0 (.pageReq .MODULES 1 "CSC1003")) (.pageReq .MODULES 1 "CSC1003"))) :=
  ⟨⟨rfl, rfl, by decide, by decide, rfl⟩,
    resolve_text_fallback_does_not_populate_cache wSearch .MODULES "CSC1003" st0
      itemCSC 1 [] rfl rfl (by decide) (by decide) rfl⟩

/-- **C9 (code bug)**: `InvalidCodeError`'s own docstring documents a
`code : str` attribute holding the offending code, but the class has no
`__init__` and nothing ever assigns the attribute, so on every raised
instance the `code` field is absent (`none`) rather than the raw code
string; moreover on the canonical-identifier path the constructor is passed
the parsed `uuid.UUID` object, whose canonical form differs from the raw
code string that was supplied (here an unhyphenated 32-hexit form).
Evaluated at the failing input `resolve(MODULES, [rawZero])` with upstream
reporting no item. -/
theorem invalid_code_error_code_attribute_unset :
    (resolveToCategoryItems wUuidEmpty [(.MODULES, [rawZero])] st0).1 =
      .error (.invalidCode ⟨.uuidArg uZero, none⟩) ∧
    (InvalidCodeError.raise (.uuidArg uZero)).code = none ∧
    (InvalidCodeError.raise (.uuidArg uZero)).code ≠ some rawZero ∧
    uZero.canonical ≠ rawZero :=
  ⟨by decide, rfl, by decide, by decide⟩

end TimetableSync
